import Mathlib

/-!
Shallow embedding of the state fan-out / command-multiplexing core of the
mnotify repository (src/client/sync.rs), together with theorems settling the
frozen claims about it.

Conventions:
* byte buffers are `List Nat` (byte values); all inputs of interest are ASCII,
  so a character and its UTF-8 byte coincide;
* fallible Rust code returning `anyhow::Result` is modelled with `Bool`
  success flags or `Except Unit`;
* `tokio::sync::watch` is modelled by an explicit version-counting state
  (`WatchState`, `WatchReceiver`), following the tokio semantics the source
  relies on: `send` bumps the version, `Receiver::clone` inherits the source
  receiver's last-seen version, `has_changed` compares versions and errors
  once the sender is dropped, `borrow_and_update` marks the current version
  seen.
-/

/-- Byte values (codepoints, ASCII range) of a string literal. -/
def strChars (s : String) : List Nat := s.data.map Char.toNat

/-! ## A small JSON model

`serde_json` values and their compact serialization, as used by
`serde_json::from_slice` / `serde_json::to_vec` in the source.  Numbers are
modelled as non-negative integers (the only numbers the embedded code ever
serializes are unsigned counts; none of the claims' inputs contain numbers at
all), and `\u` escape sequences are not modelled (no input of the claims
contains one). -/
inductive Json where
  | null : Json
  | bool (b : Bool) : Json
  | num (n : Nat) : Json
  | str (s : String) : Json
  | arr (xs : List Json) : Json
  | obj (fields : List (String × Json)) : Json

/-- Bytes that `serde_json` escapes in string output: quote, backslash and the
short-form control characters; other control characters use `\u00XX`. -/
def escapeByte (b : Nat) : List Nat :=
  if b == 34 then [92, 34]
  else if b == 92 then [92, 92]
  else if b == 8 then [92, 98]
  else if b == 9 then [92, 116]
  else if b == 10 then [92, 110]
  else if b == 12 then [92, 102]
  else if b == 13 then [92, 114]
  else if b < 32 then
    let hex : Nat → Nat := fun d => if d < 10 then 48 + d else 87 + d
    [92, 117, 48, 48, hex (b / 16), hex (b % 16)]
  else [b]

/-- Escape every byte of a string body. -/
def escapeBytes (bs : List Nat) : List Nat := bs.flatMap escapeByte

mutual
/-- Compact JSON rendering, byte for byte as `serde_json::to_vec` produces it. -/
def renderJsonBytes : Json → List Nat
  | .null => [110, 117, 108, 108]
  | .bool true => [116, 114, 117, 101]
  | .bool false => [102, 97, 108, 115, 101]
  | .num n => (Nat.toDigits 10 n).map Char.toNat
  | .str s => [34] ++ escapeBytes (strChars s) ++ [34]
  | .arr xs => [91] ++ renderArrBody xs ++ [93]
  | .obj fs => [123] ++ renderObjBody fs ++ [125]

/-- Comma-separated rendering of array elements. -/
def renderArrBody : List Json → List Nat
  | [] => []
  | [x] => renderJsonBytes x
  | x :: y :: xs => renderJsonBytes x ++ [44] ++ renderArrBody (y :: xs)

/-- Comma-separated rendering of object members. -/
def renderObjBody : List (String × Json) → List Nat
  | [] => []
  | [(k, v)] => [34] ++ escapeBytes (strChars k) ++ [34, 58] ++ renderJsonBytes v
  | (k, v) :: p :: fs =>
      [34] ++ escapeBytes (strChars k) ++ [34, 58] ++ renderJsonBytes v ++ [44]
        ++ renderObjBody (p :: fs)
end

/-- JSON whitespace bytes. -/
def isWsByte (b : Nat) : Bool := b == 32 || b == 9 || b == 10 || b == 13

/-- Drop leading JSON whitespace. -/
def skipWs : List Nat → List Nat
  | [] => []
  | b :: rest => if isWsByte b then skipWs rest else b :: rest

/-- Single-character JSON escape sequences accepted after a backslash. -/
def escChar (b : Nat) : Option Nat :=
  if b == 34 then some 34
  else if b == 92 then some 92
  else if b == 47 then some 47
  else if b == 110 then some 10
  else if b == 116 then some 9
  else if b == 114 then some 13
  else if b == 98 then some 8
  else if b == 102 then some 12
  else none

/-- Parse the body of a JSON string (the opening quote already consumed),
returning the decoded characters and the bytes after the closing quote. -/
def parseStrBody (fuel : Nat) (input : List Nat) : Option (List Char × List Nat) :=
  match fuel, input with
  | 0, _ => none
  | _ + 1, [] => none
  | f + 1, b :: rest =>
    if b == 34 then some ([], rest)
    else if b == 92 then
      match rest with
      | [] => none
      | e :: rest2 =>
        match escChar e with
        | none => none
        | some c =>
          match parseStrBody f rest2 with
          | none => none
          | some (cs, r) => some (Char.ofNat c :: cs, r)
    else if b < 32 then none
    else
      match parseStrBody f rest with
      | none => none
      | some (cs, r) => some (Char.ofNat b :: cs, r)

/-- Parse a run of decimal digits, accumulating into `acc`. -/
def parseDigits : List Nat → Nat → Nat × List Nat
  | b :: rest, acc =>
      if 48 ≤ b && b ≤ 57 then parseDigits rest (acc * 10 + (b - 48)) else (acc, b :: rest)
  | [], acc => (acc, [])

mutual
/-- Recursive-descent JSON value parser (fuel bounds the nesting depth). -/
def parseValue : Nat → List Nat → Option (Json × List Nat)
  | 0, _ => none
  | f + 1, input =>
    match skipWs input with
    | [] => none
    | b :: rest =>
      if b == 110 then
        match rest with
        | 117 :: 108 :: 108 :: r => some (.null, r)
        | _ => none
      else if b == 116 then
        match rest with
        | 114 :: 117 :: 101 :: r => some (.bool true, r)
        | _ => none
      else if b == 102 then
        match rest with
        | 97 :: 108 :: 115 :: 101 :: r => some (.bool false, r)
        | _ => none
      else if b == 34 then
        match parseStrBody (rest.length + 1) rest with
        | none => none
        | some (cs, r) => some (.str (String.mk cs), r)
      else if 48 ≤ b && b ≤ 57 then
        let (n, r) := parseDigits rest (b - 48)
        some (.num n, r)
      else if b == 91 then
        match skipWs rest with
        | 93 :: r => some (.arr [], r)
        | other =>
          match parseElems f other with
          | none => none
          | some (xs, r) => some (.arr xs, r)
      else if b == 123 then
        match skipWs rest with
        | 125 :: r => some (.obj [], r)
        | other =>
          match parseFields f other with
          | none => none
          | some (fs, r) => some (.obj fs, r)
      else none

/-- Parse the elements of a non-empty JSON array up to the closing bracket. -/
def parseElems : Nat → List Nat → Option (List Json × List Nat)
  | 0, _ => none
  | f + 1, input =>
    match parseValue f input with
    | none => none
    | some (j, rest) =>
      match skipWs rest with
      | 44 :: r =>
        match parseElems f r with
        | none => none
        | some (xs, r2) => some (j :: xs, r2)
      | 93 :: r => some ([j], r)
      | _ => none

/-- Parse the members of a non-empty JSON object up to the closing brace. -/
def parseFields : Nat → List Nat → Option (List (String × Json) × List Nat)
  | 0, _ => none
  | f + 1, input =>
    match skipWs input with
    | 34 :: rest =>
      match parseStrBody (rest.length + 1) rest with
      | none => none
      | some (cs, r) =>
        match skipWs r with
        | 58 :: r2 =>
          match parseValue f r2 with
          | none => none
          | some (j, r3) =>
            match skipWs r3 with
            | 44 :: r4 =>
              match parseFields f r4 with
              | none => none
              | some (fs, r5) => some ((String.mk cs, j) :: fs, r5)
            | 125 :: r4 => some ([(String.mk cs, j)], r4)
            | _ => none
        | _ => none
    | _ => none
end

/-- Parse a complete JSON document from a byte buffer; like
`serde_json::from_slice`, trailing non-whitespace bytes are an error. -/
def parseJson (input : List Nat) : Option Json :=
  match parseValue (input.length + 1) input with
  | none => none
  | some (j, rest) => if (skipWs rest).isEmpty then some j else none

/-! ## SocketCommand and its decoding

Model of the `SocketCommand` enum of src/client/sync.rs.  Room, event ids and
paths are modelled as plain strings.  The serde derive on the source enum has
per-variant `alias` attributes but no `tag` attribute, so the wire format is
serde's default externally tagged representation: a JSON map with exactly one
entry whose key names the variant (`Send`/`send`, `File`/`attachment`/`file`/
`upload`, `Subscribe`/`subscribe`) and whose value holds the variant's fields.
Unknown fields inside a variant are ignored (serde default), a missing
`Option` field defaults to `none`, and a missing required field is an error. -/
inductive SocketCommand where
  | send (room_id : String) (reply_to : Option String) (message : String)
  | file (room_id : String) (path : String)
  | subscribe (room_id : String)
deriving DecidableEq, Repr

/-- Extract a JSON string. -/
def getStr : Json → Option String
  | .str s => some s
  | _ => none

/-- Decode the fields of one externally-tagged variant, given the variant key. -/
def decodeVariant (k : String) (fields : List (String × Json)) : Option SocketCommand :=
  if k == "Send" || k == "send" then
    match List.lookup "room_id" fields, List.lookup "message" fields with
    | some (.str rid), some (.str msg) =>
      match List.lookup "reply_to" fields with
      | none => some (.send rid none msg)
      | some .null => some (.send rid none msg)
      | some (.str e) => some (.send rid (some e) msg)
      | some _ => none
    | _, _ => none
  else if k == "File" || k == "attachment" || k == "file" || k == "upload" then
    match List.lookup "room_id" fields, List.lookup "path" fields with
    | some (.str rid), some (.str p) => some (.file rid p)
    | _, _ => none
  else if k == "Subscribe" || k == "subscribe" then
    match List.lookup "room_id" fields with
    | some (.str rid) => some (.subscribe rid)
    | _ => none
  else none

/-- Externally tagged enum deserialization: the value must be a map with a
single entry whose key is a variant name and whose value is the field map. -/
def socketCommandFromJson : Json → Option SocketCommand
  | .obj [(k, .obj fields)] => decodeVariant k fields
  | _ => none

/-- Model of `serde_json::from_slice::<SocketCommand>` on one line. -/
def decodeSocketCommand (line : List Nat) : Option SocketCommand :=
  match parseJson line with
  | none => none
  | some j => socketCommandFromJson j

/-- Model of Rust `slice::split(|b| b == b'\n')`: the subslices between
newline bytes.  An empty buffer yields one empty subslice, and a trailing
delimiter yields a trailing empty subslice. -/
def splitOnNL : List Nat → List (List Nat)
  | [] => [[]]
  | b :: rest =>
    if b == 10 then [] :: splitOnNL rest
    else
      match splitOnNL rest with
      | s :: ss => (b :: s) :: ss
      | [] => [[b]]

/-- Iterate the decode loop of `socket_command` over the split segments:
each segment is decoded and, on success, its command is spawned
(fire-and-forget); the first decode failure makes the whole call return an
error (the `?` in the loop), leaving the remaining segments unprocessed.
Result: the list of spawned commands and the success flag of the call. -/
def runLines : List (List Nat) → List SocketCommand × Bool
  | [] => ([], true)
  | l :: ls =>
    match decodeSocketCommand l with
    | none => ([], false)
    | some c =>
      let (cs, ok) := runLines ls
      (c :: cs, ok)

/-- Model of `Client::socket_command`: split the buffer on newlines and run
the decode/spawn loop. -/
def socket_command (data : List Nat) : List SocketCommand × Bool :=
  runLines (splitOnNL data)

/-- Outcome of one `try_read` in the read half of `handle_client`'s loop:
`bytes []` is the zero-byte read (peer closed). -/
inductive ReadOutcome where
  | bytes (data : List Nat) : ReadOutcome
  | errWouldBlock : ReadOutcome
  | errOther : ReadOutcome

/-- One pass of the readable branch of `handle_client`'s loop: the commands
spawned and whether the loop keeps running.  A zero-byte read or a
non-`WouldBlock` error breaks the loop; any result of `socket_command`
(including an error) is wrapped in `Some(...)` and discarded, so the loop
continues. -/
def readStep : ReadOutcome → List SocketCommand × Bool
  | .bytes [] => ([], false)
  | .bytes d => ((socket_command d).1, true)
  | .errWouldBlock => ([], true)
  | .errOther => ([], false)

/-! ## The latest-value channel (`tokio::sync::watch`)

State of the single slot: a monotonically increasing version counter and the
held value.  `watch::channel(init)` starts at version 0 with the initial
receiver having seen version 0. -/
structure WatchState where
  version : Nat
  value : List Nat
deriving DecidableEq, Repr

/-- A receiver tracks only the version it last observed. -/
structure WatchReceiver where
  seen : Nat
deriving DecidableEq, Repr

/-- Model of `watch::channel(init)`: fresh state and the initial receiver. -/
def watchChannelInit (init : List Nat) : WatchState × WatchReceiver :=
  (⟨0, init⟩, ⟨0⟩)

/-- Model of `Sender::send`: overwrite the slot and bump the version. -/
def watchSend (st : WatchState) (v : List Nat) : WatchState :=
  ⟨st.version + 1, v⟩

/-- Model of `Receiver::clone`: the clone inherits the cloned receiver's
last-seen version (it does not re-mark the current value as seen). -/
def receiverClone (r : WatchReceiver) : WatchReceiver := ⟨r.seen⟩

/-- Model of `Receiver::has_changed`: an error once the sender is dropped,
otherwise whether the current version differs from the last-seen one. -/
def hasChanged (r : WatchReceiver) (st : WatchState) (closed : Bool) : Except Unit Bool :=
  if closed then .error () else .ok (r.seen != st.version)

/-- Model of `Receiver::borrow_and_update`: return the current value and mark
its version as seen. -/
def borrowAndUpdate (_r : WatchReceiver) (st : WatchState) : List Nat × WatchReceiver :=
  (st.value, ⟨st.version⟩)

/-- Apply a sequence of publishes to the channel. -/
def applySends (st : WatchState) : List (List Nat) → WatchState
  | [] => st
  | v :: vs => applySends (watchSend st v) vs

/-- Actions the write branch of `handle_client`'s loop can take after one
writable pass. -/
inductive WriteAction where
  | brk : WriteAction
  | cont : WriteAction
  | sleepCont : WriteAction
deriving DecidableEq, Repr

/-- One pass of the writable branch of `handle_client`'s loop, from the
source: `has_changed` error breaks; unchanged sleeps and retries; changed
calls `borrow_and_update` (marking the version seen), appends `b'\n'` and
writes; a write error just continues the loop.  Result: the receiver's new
last-seen version, the line delivered to the client (if the write succeeded),
and the loop action. -/
def writeStep (seen version : Nat) (value : List Nat) (closed writeOk : Bool) :
    Nat × Option (List Nat) × WriteAction :=
  if closed then (seen, none, .brk)
  else if seen == version then (seen, none, .sleepCont)
  else if writeOk then (version, some (value ++ [10]), .cont)
  else (version, none, .cont)

/-- Events in an interleaving of the publisher and one client's write loop. -/
inductive SyncEvent where
  | publish (v : List Nat) : SyncEvent
  | poll : SyncEvent

/-- Channel state, one client's receiver, and the lines that client has been
sent so far. -/
structure TraceState where
  chan : WatchState
  seen : Nat
  written : List (List Nat)
deriving DecidableEq, Repr

/-- One interleaving step: a publish overwrites the slot; a poll runs the
writable branch with the socket writable and the write succeeding. -/
def traceStep (st : TraceState) : SyncEvent → TraceState
  | .publish v => { st with chan := watchSend st.chan v }
  | .poll =>
    let (seen2, w, _a) := writeStep st.seen st.chan.version st.chan.value false true
    { st with
        seen := seen2
        written := st.written ++ (match w with | some l => [l] | none => []) }

/-- Run an interleaving of publishes and client polls. -/
def runTrace (st : TraceState) (es : List SyncEvent) : TraceState :=
  es.foldl traceStep st

/-! ## Timeline events and room snapshots

The timeline filter of `handle_stream` deserializes each raw timeline event
and keeps only `MessageLike(RoomMessage(Original))` events.  The possible
deserialization outcomes are modelled structurally, mirroring the nested
`match` of the source. -/

/-- The `SyncMessageLikeEvent` variants the source distinguishes. -/
inductive MessageVariant where
  | original : MessageVariant
  | redacted : MessageVariant
deriving DecidableEq, Repr

/-- The `AnySyncMessageLikeEvent` shapes the source distinguishes. -/
inductive MessageLikeKind where
  | roomMessage (v : MessageVariant) : MessageLikeKind
  | otherMessageLike : MessageLikeKind
deriving DecidableEq, Repr

/-- Result of `ev.event.deserialize_as::<AnySyncTimelineEvent>()`. -/
inductive DeserializeResult where
  | deserErr : DeserializeResult
  | state : DeserializeResult
  | messageLike (k : MessageLikeKind) : DeserializeResult
deriving DecidableEq, Repr

/-- A raw timeline event: its deserialization outcome, whether the sync layer
attached `encryption_info` to it, and its raw JSON payload (what ends up in
the outward snapshot). -/
structure TimelineEvent where
  deser : DeserializeResult
  encrypted : Bool
  raw : Json

/-- The `filter_map` closure of `handle_stream`, without its fire-and-forget
side effect: deserialization failures are dropped, then the nested match
keeps only original room-message events (for encrypted ones the source also
spawns a detached `cache_encrypted_file` task; `serde_json::to_value` on a
ruma event content is infallible, so that branch never drops the event). -/
def keepEvent (ev : TimelineEvent) : Option TimelineEvent :=
  match ev.deser with
  | .deserErr => none
  | .messageLike k =>
    match k with
    | .roomMessage v =>
      match v with
      | .original => some ev
      | .redacted => none
    | .otherMessageLike => none
  | .state => none

/-- The timeline filter of `handle_stream`. -/
def filterTimeline (evs : List TimelineEvent) : List TimelineEvent :=
  evs.filterMap keepEvent

/-- Flat characterization of the events the snapshot keeps. -/
def isOriginalRoomMessage : DeserializeResult → Bool
  | .messageLike (.roomMessage .original) => true
  | _ => false

/-- An `mxc://` URI, already split into its parts, plus its validity flag
(`OwnedMxcUri::is_valid`). -/
structure Mxc where
  valid : Bool
  server : String
  mediaId : String

/-- Model of `Client::thumbnail`: empty string if there is no URI or it is
invalid, otherwise the thumbnail URL built from the homeserver and the URI's
parts. -/
def thumbnail (homeserver : String) (mxc : Option Mxc) : String :=
  match mxc with
  | none => ""
  | some m =>
    if !m.valid then ""
    else
      homeserver ++ "_matrix/media/v3/thumbnail/" ++ m.server ++ "/" ++ m.mediaId
        ++ "?width=50&height=50&method=scale"

/-- A room member as returned by `r.members(RoomMemberships::ACTIVE)`. -/
structure MemberInput where
  user_id : String
  name : String
  display_name : Option String
  avatarUrl : Option Mxc

/-- Modelled from the spec: the outward `RoomMember` record of the missing
`src/outputs.rs`, with the fields the source populates (`avatar`, `name`,
`display_name`, `user_id`). -/
structure RoomMember where
  avatar : String
  name : String
  display_name : Option String
  user_id : String

/-- Build one outward member exactly as the member loop of `handle_stream`
does. -/
def buildMember (hs : String) (m : MemberInput) : RoomMember :=
  { avatar := match m.avatarUrl with
      | some uri => thumbnail hs (some uri)
      | none => ""
    name := m.name
    display_name := m.display_name
    user_id := m.user_id }

/-- Modelled from the spec: the outward `SSRoom` snapshot record of the
missing `src/outputs.rs` (spec §3 `RoomSnapshot`), with the fields the source
populates and `unread_count` as a non-negative integer. -/
structure SSRoom where
  room_id : String
  name : Option String
  events : List TimelineEvent
  members : List RoomMember
  unread_notifications : Nat
  avatar : String
  is_direct : Bool

/-- Upstream per-room data for one sync cycle: everything `handle_stream`
reads from the sliding-sync room and the store room.  `known` is whether
`self.inner.get_room` finds the room; `membersResult` is the fallible
active-members fetch. -/
structure RoomData where
  room_id : String
  known : Bool
  name : Option String
  avatar : Option Mxc
  timeline : List TimelineEvent
  membersResult : Except Unit (List MemberInput)
  unread : Nat
  is_direct : Bool

/-- Build one room's snapshot: `none` when the store does not know the room
(the `continue`), an error when the members fetch fails (the `?` that aborts
`handle_stream`). -/
def buildRoom (hs : String) (rd : RoomData) : Except Unit (Option SSRoom) :=
  if !rd.known then .ok none
  else
    match rd.membersResult with
    | .error e => .error e
    | .ok ms =>
      .ok (some
        { room_id := rd.room_id
          name := rd.name
          events := filterTimeline rd.timeline
          members := ms.map (buildMember hs)
          unread_notifications := rd.unread
          avatar := thumbnail hs rd.avatar
          is_direct := rd.is_direct })

/-- Build the whole `output` vector of one sync cycle; the first members
error aborts the cycle (and, in the source, all of `handle_stream`). -/
def buildCycle (hs : String) : List RoomData → Except Unit (List SSRoom)
  | [] => .ok []
  | rd :: rest =>
    match buildRoom hs rd with
    | .error e => .error e
    | .ok none => buildCycle hs rest
    | .ok (some r) =>
      match buildCycle hs rest with
      | .error e => .error e
      | .ok rs => .ok (r :: rs)

/-- Whether building a cycle hits a members-fetch error. -/
def buildCycleErrored (hs : String) (c : List RoomData) : Bool :=
  match buildCycle hs c with
  | .error _ => true
  | .ok _ => false

/-- Modelled from the spec: serialization of one outward member record of the
missing `src/outputs.rs`, fields in the order the source literal populates
them (`avatar`, `name`, `display_name`, `user_id`), `display_name` as `null`
when absent. -/
def encodeMember (m : RoomMember) : Json :=
  .obj
    [("avatar", .str m.avatar),
     ("name", match m.name with | n => .str n),
     ("display_name", match m.display_name with | none => .null | some d => .str d),
     ("user_id", .str m.user_id)]

/-- Modelled from the spec: serialization of one outward room snapshot of the
missing `src/outputs.rs` (spec §3), fields in the order the source literal
populates them; timeline events serialize as their raw JSON; the optional
room name as `null` when absent. -/
def encodeRoom (r : SSRoom) : Json :=
  .obj
    [("room_id", .str r.room_id),
     ("name", match r.name with | none => .null | some n => .str n),
     ("events", .arr (r.events.map (fun ev => ev.raw))),
     ("members", .arr (r.members.map encodeMember)),
     ("unread_notifications", .num r.unread_notifications),
     ("avatar", .str r.avatar),
     ("is_direct", .bool r.is_direct)]

/-- The canonical serialization `serde_json::to_vec(&output)` of one cycle's
room list. -/
def serializeDoc (rooms : List SSRoom) : List Nat :=
  renderJsonBytes (.arr (rooms.map encodeRoom))

/-- One item yielded by the sliding-sync stream: a successful response whose
processing sees the given per-room data, or an `Err` item (which, like the
end of the stream, exits the inner `while let Some(Ok(..))` loop). -/
inductive StreamItem where
  | ok (c : List RoomData) : StreamItem
  | errItem : StreamItem

/-- Result of running (a finite horizon of) `handle_stream`: the last
serialization held in the local `json` variable, the values published to the
channel in order, and whether `handle_stream` returned with an error (the
only way it returns at all). -/
structure StreamRun where
  prev : List Nat
  published : List (List Nat)
  errored : Bool
deriving Repr

/-- The inner `while let Some(Ok(_response))` loop of `handle_stream` over
one sync stream: each successful response rebuilds the document, serializes
it and publishes exactly when the bytes differ from the previous
serialization; an `Err` item (or the end of the list) ends the stream; a
members-fetch error aborts `handle_stream` itself.  This is the driver with
the channel open — some receiver alive, as when the bound acceptor holds its
receiver in the accept loop — so `s.send(..).unwrap()` succeeds; the
receiverless channel is `innerWhileClosedChan` below. -/
def innerWhile (hs : String) (prev : List Nat) : List StreamItem → StreamRun
  | [] => ⟨prev, [], false⟩
  | .errItem :: _ => ⟨prev, [], false⟩
  | .ok c :: rest =>
    match buildCycle hs c with
    | .error _ => ⟨prev, [], true⟩
    | .ok doc =>
      let nj := serializeDoc doc
      if nj == prev then innerWhile hs prev rest
      else
        let r := innerWhile hs nj rest
        ⟨r.prev, nj :: r.published, r.errored⟩

/-- The outer `loop` of `handle_stream`: when a sync stream ends it logs
"Sync stream ended" and starts a fresh sync stream, forever; the only exit is
the `?` on a members-fetch error.  A finite list of streams models a finite
horizon of this non-terminating loop; reaching the end of the list with
`errored = false` means the driver is still looping. -/
def handleStreamRun (hs : String) (prev : List Nat) : List (List StreamItem) → StreamRun
  | [] => ⟨prev, [], false⟩
  | s :: rest =>
    let r := innerWhile hs prev s
    if r.errored then ⟨r.prev, r.published, true⟩
    else
      let r2 := handleStreamRun hs r.prev rest
      ⟨r2.prev, r.published ++ r2.published, r2.errored⟩

/-- How the startup prologue of `handle_connections` ends. -/
inductive AcceptorOutcome where
  | abortedNoBind : AcceptorOutcome
  | bound : AcceptorOutcome
deriving DecidableEq, Repr

/-- The startup prologue of `handle_connections`: if the well-known socket
path exists, removal is attempted; if that removal fails the function logs
"Socket is still open!" and returns `Ok(())` without binding.  Result: the
outcome and whether removal was attempted.  (In the source this async fn is
spawned detached by `socket`, and its return value is wrapped in `Some(..)`
and discarded.) -/
def handle_connections_start (pathExists removeOk : Bool) : AcceptorOutcome × Bool :=
  if pathExists then
    if removeOk then (.bound, true) else (.abortedNoBind, true)
  else (.bound, false)

/-- How `handle_stream` stops when its channel has lost every receiver. -/
inductive DriverStop where
  | erroredMembers : DriverStop
  | panickedSend : DriverStop
deriving DecidableEq, Repr

/-- The inner `while let` loop of `handle_stream` once every receiver of the
watch channel has been dropped: a members-fetch error still exits first via
the `?`; otherwise the first cycle whose serialization differs from `json`
reaches `s.send(json.clone()).unwrap()`, and since `Sender::send` errors when
the channel has no receivers, the `unwrap` panics.  Cycles whose
serialization equals `json` attempt no send and are survived. -/
def innerWhileClosedChan (hs : String) (prev : List Nat) :
    List StreamItem → List Nat × Option DriverStop
  | [] => (prev, none)
  | .errItem :: _ => (prev, none)
  | .ok c :: rest =>
    match buildCycle hs c with
    | .error _ => (prev, some .erroredMembers)
    | .ok doc =>
      if serializeDoc doc == prev then innerWhileClosedChan hs prev rest
      else (prev, some .panickedSend)

/-- The outer loop of `handle_stream` on a receiverless channel: streams are
restarted on exhaustion exactly as in `handleStreamRun`, until a members
error or the panicking send stops the driver. -/
def handleStreamRunClosedChan (hs : String) (prev : List Nat) :
    List (List StreamItem) → Option DriverStop
  | [] => none
  | s :: rest =>
    match innerWhileClosedChan hs prev s with
    | (p, none) => handleStreamRunClosedChan hs p rest
    | (_, some st) => some st

/-- The service's observable fate over a finite horizon: what was published,
whether `handle_stream` returned the members error, and whether the process
crashed by panicking at `s.send(..).unwrap()`. -/
structure ServiceRun where
  published : List (List Nat)
  errored : Bool
  panicked : Bool
deriving DecidableEq, Repr

/-- Model of `Client::socket`: spawn `handle_connections` as a detached task
and await `handle_stream`.  While the acceptor is bound it sits forever in
its accept loop holding the channel's original receiver, so the channel stays
open and the driver behaves as `handleStreamRun`.  If the startup prologue
aborts (removal failure), the acceptor returns `Ok(())` and that receiver —
the only one, since no connection was ever accepted — is dropped; every later
`s.send(..).unwrap()` then panics, so nothing is ever published and the
process crashes at the first cycle whose serialization differs (the model
takes the prologue, which never awaits, to complete before the first sync
response arrives over the network). -/
def socketService (pathExists removeOk : Bool) (hs : String) (prev : List Nat)
    (streams : List (List StreamItem)) : (AcceptorOutcome × Bool) × ServiceRun :=
  let acc := handle_connections_start pathExists removeOk
  if acc.1 = AcceptorOutcome.bound then
    let r := handleStreamRun hs prev streams
    (acc, ⟨r.published, r.errored, false⟩)
  else
    match handleStreamRunClosedChan hs prev streams with
    | none => (acc, ⟨[], false, false⟩)
    | some .erroredMembers => (acc, ⟨[], true, false⟩)
    | some .panickedSend => (acc, ⟨[], false, true⟩)

/-! ## The encrypted-media cache -/

/-- An `EncryptedFile` reference whose `mxc` URL has already been split into
its server and media-id parts (`file.url.parts().unwrap()`; an invalid URL
panics there and is outside this model), with opaque key material. -/
structure EncryptedFileRef where
  server : String
  mediaId : String
  keyMaterial : Nat

/-- The three shapes of event content `cache_encrypted_file` distinguishes:
no `"file"` entry, a `"file"` entry that does not deserialize as an
`EncryptedFile`, or a valid reference. -/
inductive CacheContent where
  | noFileField : CacheContent
  | malformedFile : CacheContent
  | fileRef (f : EncryptedFileRef) : CacheContent

/-- Side effects `cache_encrypted_file` can perform. -/
inductive CacheEffect where
  | download (server mediaId : String) : CacheEffect
  | decryptWork : CacheEffect
  | fsWrite (path : String) : CacheEffect
deriving DecidableEq, Repr

/-- The deterministic on-disk path `Path::new("/tmp").join(id)`. -/
def mediaPath (mediaId : String) : String := "/tmp/" ++ mediaId

/-- Model of `Client::cache_encrypted_file`.  The filesystem is an
association list from path to file bytes; `net` models the download
(`reqwest::get(..).bytes()`, whose failures panic in the source and are
outside the model) and `dec` the attachment decryption keyed by the
reference's key material.  Missing or malformed content returns `Ok(())`
untouched; if the path already holds a file the call returns `Ok(())` at
once; otherwise it downloads, decrypts and writes the plaintext.  Result:
the filesystem afterwards, the effects performed, and the success flag. -/
def cache_encrypted_file (fs : List (String × List Nat))
    (net : String → String → List Nat) (dec : Nat → List Nat → List Nat)
    (content : CacheContent) : List (String × List Nat) × List CacheEffect × Bool :=
  match content with
  | .noFileField => (fs, [], true)
  | .malformedFile => (fs, [], true)
  | .fileRef f =>
    let path := mediaPath f.mediaId
    match List.lookup path fs with
    | some _ => (fs, [], true)
    | none =>
      let ciphertext := net f.server f.mediaId
      let plaintext := dec f.keyMaterial ciphertext
      ((path, plaintext) :: fs, [.download f.server f.mediaId, .decryptWork, .fsWrite path], true)

/-! ## Concrete example data used by counterexamples and witnesses -/

/-- A room whose sync-cycle data is entirely empty and whose members fetch
succeeds with no members. -/
def exRoom : RoomData :=
  { room_id := "!r:x", known := true, name := none, avatar := none, timeline := [],
    membersResult := .ok [], unread := 0, is_direct := false }

/-- The snapshot `buildRoom` produces for `exRoom`. -/
def exSSRoom : SSRoom :=
  { room_id := "!r:x", name := none, events := [], members := [],
    unread_notifications := 0, avatar := "", is_direct := false }

/-- Like `exRoom` but its active-members fetch fails. -/
def badRoom : RoomData :=
  { room_id := "!r:x", known := true, name := none, avatar := none, timeline := [],
    membersResult := .error (), unread := 0, is_direct := false }

/-- Serialization of the empty room list (the bytes of an empty JSON array). -/
def exS0 : List Nat := serializeDoc []

/-- Serialization of the one-room document built from `exRoom`. -/
def exS1 : List Nat := serializeDoc [exSSRoom]

/-- The exact read-loop input buffer of claim C2: a malformed line followed
by the spec's subscribe line, both newline-terminated. -/
def c2input : List Nat :=
  strChars "\x7b\"type\":\"bogus\"\x7d\n\x7b\"type\":\"subscribe\",\"room_id\":\"!a:x\"\x7d\n"

/-- One well-formed subscribe command line in the wire format the source's
externally tagged serde derive actually accepts. -/
def c10data : List Nat := strChars "\x7b\"subscribe\":\x7b\"room_id\":\"!a:x\"\x7d\x7d"

/-- A stream item is safe when processing it cannot hit a members-fetch
error. -/
def itemSafe (hs : String) : StreamItem → Bool
  | .errItem => true
  | .ok c => !buildCycleErrored hs c

/-! ## Helper lemmas -/

/-- `splitOnNL` always yields at least one segment. -/
theorem splitOnNL_ne_nil : ∀ data : List Nat, splitOnNL data ≠ [] := by
  intro data
  induction data with
  | nil => simp [splitOnNL]
  | cons b rest ih =>
    simp only [splitOnNL]
    split
    · simp
    · split
      · simp
      · simp

/-- A trailing newline produces a trailing empty segment. -/
theorem splitOnNL_append_newline (data : List Nat) :
    splitOnNL (data ++ [10]) = splitOnNL data ++ [[]] := by
  induction data with
  | nil => rfl
  | cons b rest ih =>
    show splitOnNL (b :: (rest ++ [10])) = splitOnNL (b :: rest) ++ [[]]
    by_cases hb : (b == 10) = true
    · simp only [splitOnNL, hb, if_pos, List.cons_append]
      rw [ih]
    · simp only [splitOnNL, hb, Bool.false_eq_true, if_false]
      rw [ih]
      rcases hsp : splitOnNL rest with _ | ⟨s, ss⟩
      · exact absurd hsp (splitOnNL_ne_nil rest)
      · simp

/-- The decode loop over segments that all decode, followed by the empty
trailing segment: every command is spawned and the call still errors. -/
theorem runLines_all_ok_trailing (ls : List (List Nat))
    (h : ∀ l ∈ ls, (decodeSocketCommand l).isSome) :
    runLines (ls ++ [[]]) = (ls.filterMap decodeSocketCommand, false) := by
  induction ls with
  | nil =>
    have hnil : decodeSocketCommand [] = none := rfl
    simp [runLines, hnil]
  | cons l t ih =>
    have hl := h l (by simp)
    obtain ⟨c, hc⟩ := Option.isSome_iff_exists.mp hl
    have ht := ih (fun x hx => h x (by simp [hx]))
    simp [runLines, hc, List.filterMap_cons, ht]

/-- Publishing `vs` in order advances the channel's version by `vs.length`. -/
theorem applySends_version : ∀ (vs : List (List Nat)) (st : WatchState),
    (applySends st vs).version = st.version + vs.length := by
  intro vs
  induction vs with
  | nil => intro st; simp [applySends]
  | cons v t ih =>
    intro st
    simp [applySends, watchSend, ih ⟨st.version + 1, v⟩]
    omega

/-- Within one sync stream: the values published by `innerWhile` never repeat
consecutively (nor repeat the previous serialization), and the final value of
the local `json` variable is the last element of that chain. -/
theorem innerWhile_chain (hs : String) : ∀ (items : List StreamItem) (prev : List Nat),
    List.Chain' (fun a b => a ≠ b) (prev :: (innerWhile hs prev items).published) ∧
    (prev :: (innerWhile hs prev items).published).getLast?
      = some (innerWhile hs prev items).prev := by
  intro items
  induction items with
  | nil => intro prev; constructor <;> simp [innerWhile]
  | cons it rest ih =>
    intro prev
    cases it with
    | errItem => constructor <;> simp [innerWhile]
    | ok c =>
      rcases hbc : buildCycle hs c with e | doc
      · constructor <;> simp [innerWhile, hbc]
      · simp only [innerWhile, hbc]
        split
        next hnj => exact ih prev
        next hnj =>
          obtain ⟨ihc, ihl⟩ := ih (serializeDoc doc)
          have hne : prev ≠ serializeDoc doc := by
            intro he
            exact hnj (by simp [he])
          constructor
          · exact List.chain'_cons.mpr ⟨hne, ihc⟩
          · show (prev :: serializeDoc doc
                :: (innerWhile hs (serializeDoc doc) rest).published).getLast?
              = some (innerWhile hs (serializeDoc doc) rest).prev
            rw [List.getLast?_cons_cons]
            exact ihl

/-- Across sync-stream restarts as well: the published values of
`handleStreamRun` form a chain with no two consecutive equal values, and the
carried serialization is the chain's last element. -/
theorem handleStreamRun_chain (hs : String) :
    ∀ (streams : List (List StreamItem)) (prev : List Nat),
    List.Chain' (fun a b => a ≠ b) (prev :: (handleStreamRun hs prev streams).published) ∧
    (prev :: (handleStreamRun hs prev streams).published).getLast?
      = some (handleStreamRun hs prev streams).prev := by
  intro streams
  induction streams with
  | nil => intro prev; constructor <;> simp [handleStreamRun]
  | cons s rest ih =>
    intro prev
    obtain ⟨c1, l1⟩ := innerWhile_chain hs s prev
    simp only [handleStreamRun]
    split
    next herr => exact ⟨c1, l1⟩
    next herr =>
      obtain ⟨c2, l2⟩ := ih (innerWhile hs prev s).prev
      have happ :
          prev :: ((innerWhile hs prev s).published
              ++ (handleStreamRun hs (innerWhile hs prev s).prev rest).published)
            = (prev :: (innerWhile hs prev s).published)
              ++ (handleStreamRun hs (innerWhile hs prev s).prev rest).published := by
        simp
      constructor
      · show List.Chain' (fun a b => a ≠ b)
          (prev :: ((innerWhile hs prev s).published
            ++ (handleStreamRun hs (innerWhile hs prev s).prev rest).published))
        rw [happ, List.chain'_append]
        refine ⟨c1, (List.chain'_cons'.mp c2).2, ?_⟩
        intro x hx y hy
        rw [l1] at hx
        simp only [Option.mem_def, Option.some.injEq] at hx
        subst hx
        exact (List.chain'_cons'.mp c2).1 y hy
      · show (prev :: ((innerWhile hs prev s).published
              ++ (handleStreamRun hs (innerWhile hs prev s).prev rest).published)).getLast?
          = some (handleStreamRun hs (innerWhile hs prev s).prev rest).prev
        rw [happ, List.getLast?_append, l1]
        rcases hp2 : (handleStreamRun hs (innerWhile hs prev s).prev rest).published
            with _ | ⟨y, ys⟩
        · rw [hp2] at l2
          simp only [List.getLast?_nil, Option.none_or]
          simpa using l2
        · rw [hp2] at l2
          rw [List.getLast?_cons_cons] at l2
          rw [l2]
          rfl

/-- If no cycle of the stream hits a members-fetch error, the inner while of
`handle_stream` never aborts. -/
theorem innerWhile_safe (hs : String) : ∀ (items : List StreamItem) (prev : List Nat),
    (∀ it ∈ items, itemSafe hs it = true) → (innerWhile hs prev items).errored = false := by
  intro items
  induction items with
  | nil => intro prev _; simp [innerWhile]
  | cons it rest ih =>
    intro prev h
    cases it with
    | errItem => simp [innerWhile]
    | ok c =>
      rcases hbc : buildCycle hs c with e | doc
      · have := h (.ok c) (by simp)
        simp [itemSafe, buildCycleErrored, hbc] at this
      · have ht : ∀ it ∈ rest, itemSafe hs it = true := fun x hx => h x (by simp [hx])
        simp only [innerWhile, hbc]
        split
        · exact ih prev ht
        · simpa using ih (serializeDoc doc) ht

/-! ## Claim theorems -/

/-- C1, counterexample: `handle_stream` publishes `exS0, exS1, exS0` on three
cycles (each differing from its predecessor, so the diff check lets all three
through), yet a connected client that polls only after the first and after the
third publish is sent the byte-identical line `exS0 ++ [10]` twice in a row —
refuting the claim's final clause that no connected client is ever sent a
duplicate consecutive state line. -/
theorem duplicateLineToSlowClient :
    (handleStreamRun "h" [] [[.ok [], .ok [exRoom], .ok []]]).published
      = [exS0, exS1, exS0] ∧
    exS0 ≠ exS1 ∧
    (runTrace ⟨⟨0, []⟩, 0, []⟩
        [.publish exS0, .poll, .publish exS1, .publish exS0, .poll]).written
      = [exS0 ++ [10], exS0 ++ [10]] := by
  refine ⟨by decide, by decide, by decide⟩

/-- C1 (amended): on each cycle `handle_stream` publishes exactly when the
canonical serialization differs byte-for-byte from the previously published
one, so the published sequence (prefixed by the initial empty serialization)
never holds two consecutive equal byte strings — identical consecutive cycles
cause no publish.  A client that polls after every publish is therefore never
sent a duplicate consecutive line; but a client whose polls skip an
intervening publish can be, as the concrete trace in the second conjunct
shows. -/
theorem publishOnlyOnChange :
    (∀ (hs : String) (prev : List Nat) (streams : List (List StreamItem)),
      List.Chain' (fun a b => a ≠ b) (prev :: (handleStreamRun hs prev streams).published)) ∧
    (runTrace ⟨⟨0, []⟩, 0, []⟩
        [.publish exS0, .poll, .publish exS1, .publish exS0, .poll]).written
      = [exS0 ++ [10], exS0 ++ [10]] := by
  constructor
  · intro hs prev streams
    exact (handleStreamRun_chain hs streams prev).1
  · decide

/-- C2, counterexample: feeding the claim's exact buffer (malformed line, then
the spec's subscribe line, both newline-terminated) to `socket_command`
dispatches no command at all — not the claimed exactly one Subscribe — and
the call returns an error. -/
theorem bogusThenSubscribeDispatchesNothing :
    socket_command c2input = ([], false) := by decide

/-- C2 (amended): decoding the malformed first line makes `socket_command`
return an error that discards the rest of the buffer, so no Subscribe is
dispatched for the following line (which the externally tagged wire format
would not decode either); the connection is not terminated, because
`handle_client` wraps the result in `Some(..)` and discards it, continuing
its loop. -/
theorem decodeErrorAbortsBufferNotConnection :
    socket_command c2input = ([], false) ∧ readStep (.bytes c2input) = ([], true) := by
  refine ⟨by decide, by decide⟩

/-- C3, counterexample: a members-fetch error in the first cycle makes
`handle_stream` return with an error, publishing nothing — the following
cycle (which on its own would publish `exS0`) is never processed, and the
service terminates instead of continuing. -/
theorem memberErrorAbortsServiceExample :
    (handleStreamRun "h" [] [[.ok [badRoom], .ok []]]).errored = true ∧
    (handleStreamRun "h" [] [[.ok [badRoom], .ok []]]).published = [] ∧
    (handleStreamRun "h" [] [[.ok []]]).published = [exS0] := by
  refine ⟨by decide, by decide, by decide⟩

/-- C3 (amended): a members-fetch error does not abort just that sync cycle —
the `?` makes `handle_stream` itself return the error, so nothing of that
cycle is published, no later cycle or stream is processed, and through
`socket`'s `handle_stream(s).await?` the whole service terminates with the
error, whatever the acceptor task did. -/
theorem memberErrorFatal (hs : String) (prev : List Nat) (c : List RoomData)
    (items : List StreamItem) (streams : List (List StreamItem)) (pe ro : Bool)
    (h : buildCycleErrored hs c = true) :
    (handleStreamRun hs prev ((.ok c :: items) :: streams)).errored = true ∧
    (handleStreamRun hs prev ((.ok c :: items) :: streams)).published = [] ∧
    (socketService pe ro hs prev ((.ok c :: items) :: streams)).2.errored = true := by
  rcases hbc : buildCycle hs c with e | doc
  · refine ⟨?_, ?_, ?_⟩
    · simp [handleStreamRun, innerWhile, hbc]
    · simp [handleStreamRun, innerWhile, hbc]
    · simp only [socketService]
      split
      · simp [handleStreamRun, innerWhile, hbc]
      · simp [handleStreamRunClosedChan, innerWhileClosedChan, hbc]
  · simp [buildCycleErrored, hbc] at h

/-- Witness for C3's amended theorem at a concrete erroring cycle. -/
theorem memberErrorFatal_witness :
    (handleStreamRun "h" [] [[.ok [badRoom]]]).errored = true ∧
    (handleStreamRun "h" [] [[.ok [badRoom]]]).published = [] ∧
    (socketService true true "h" [] [[.ok [badRoom]]]).2.errored = true :=
  memberErrorFatal "h" [] [badRoom] [] [] true true (by decide)

/-- C4, counterexample: after the first sync stream ends immediately (a dead
stream), the driver does not stop: it consumes a second stream and publishes
that stream's document, surfacing no terminal condition. -/
theorem streamEndRestartsExample :
    (handleStreamRun "h" [] [[], [.ok []]]).published = [exS0] ∧
    (handleStreamRun "h" [] [[], [.ok []]]).errored = false := by
  refine ⟨by decide, by decide⟩

/-- C4 (amended): the end of a sync stream is not treated as terminal: the
outer loop logs and starts a fresh sync stream, forever.  As long as no cycle
hits a members-fetch error, `handle_stream` never returns, however many
streams end. -/
theorem streamEndNeverTerminal (hs : String) (prev : List Nat)
    (streams : List (List StreamItem))
    (h : ∀ s ∈ streams, ∀ it ∈ s, itemSafe hs it = true) :
    (handleStreamRun hs prev streams).errored = false := by
  revert h
  induction streams generalizing prev with
  | nil => intro _; simp [handleStreamRun]
  | cons s rest ih =>
    intro h
    have h1 : (innerWhile hs prev s).errored = false :=
      innerWhile_safe hs s prev (fun it hit => h s (by simp) it hit)
    simp only [handleStreamRun]
    split
    next herr => exact absurd herr (by simp [h1])
    next _ =>
      have h2 := ih (innerWhile hs prev s).prev
        (fun s2 hs2 it hit => h s2 (by simp [hs2]) it hit)
      simpa using h2

/-- Witness for C4's amended theorem: two stream ends in a row, then a
productive stream, and the driver is still running. -/
theorem streamEndNeverTerminal_witness :
    (handleStreamRun "h" [] [[], [], [StreamItem.ok []]]).errored = false :=
  streamEndNeverTerminal "h" [] [[], [], [StreamItem.ok []]] (by decide)

/-- C5, counterexample: a receiver cloned from the acceptor's never-updated
receiver, polling before any publish has happened, reports
`changed = false` — refuting the claim that the first poll reports
`changed = true` regardless. -/
theorem earlySubscriberFirstPollUnchanged :
    hasChanged (receiverClone (watchChannelInit []).2) (watchChannelInit []).1 false
      = .ok false := rfl

/-- C5 (amended): a per-connection receiver is a clone of the acceptor's
receiver and inherits its last-seen version, the channel's initial version 0;
its first poll reports `changed = true` exactly when at least one publish has
happened by then (before or after the clone) — in particular always after the
first publish, but not on a channel nothing has been published to. -/
theorem clonedReceiverFirstPoll (init : List Nat) (vs : List (List Nat)) :
    hasChanged (receiverClone (watchChannelInit init).2)
        (applySends (watchChannelInit init).1 vs) false
      = .ok (!vs.isEmpty) := by
  have hv := applySends_version vs (watchChannelInit init).1
  show Except.ok ((0 : Nat) != (applySends (watchChannelInit init).1 vs).version)
      = Except.ok (!vs.isEmpty)
  rw [hv]
  cases vs with
  | nil => rfl
  | cons v t =>
    simp only [bne_iff_ne, watchChannelInit, List.length_cons, List.isEmpty_cons,
      Bool.not_false, ne_eq, Except.ok.injEq, decide_eq_true_eq]
    omega

/-- C6, counterexample: with the socket path present and its removal failing,
the service does not abort startup.  The acceptor prologue returns `Ok(())`
without binding and its dropped receiver closes the channel, yet the sync
driver keeps running: across one stream error and one dead stream it survives
the whole modeled horizon with no error and no panic (first two conjuncts).
And when a cycle does produce a changed serialization, the driver dies by
panicking at `s.send(..).unwrap()` on the receiverless channel — a mid-run
crash after the first sync response, not a startup abort — with nothing ever
published (last two conjuncts). -/
theorem removeFailNoStartupAbortExample :
    (socketService true false "h" [] [[.errItem], []]).1.1 = .abortedNoBind ∧
    (socketService true false "h" [] [[.errItem], []]).2 = ⟨[], false, false⟩ ∧
    (socketService true false "h" [] [[.ok []]]).2.panicked = true ∧
    (socketService true false "h" [] [[.ok []]]).2.published = [] := by
  refine ⟨rfl, by decide, by decide, by decide⟩

/-- C6 (amended): on startup the well-known path is removed before binding
whenever it exists, and a failed removal means the listener is never bound
(no binding over a possibly-live socket).  But the service does not abort
startup: `handle_connections` returns `Ok(())` from its detached task,
dropping the channel's only receiver.  When the acceptor binds, the service
behaves as the open-channel driver and never panics; after a failed removal
nothing is ever published, the driver keeps running while no cycle's
serialization changes, and the first changed serialization makes
`s.send(..).unwrap()` panic, crashing the whole process mid-run. -/
theorem socketStartupBehavior :
    (∀ pe ro : Bool,
      ((handle_connections_start pe ro).1 = AcceptorOutcome.abortedNoBind
          ↔ (pe = true ∧ ro = false)) ∧
      (handle_connections_start pe ro).2 = pe) ∧
    (∀ (pe ro : Bool) (hs : String) (prev : List Nat)
        (streams : List (List StreamItem)),
      (handle_connections_start pe ro).1 = AcceptorOutcome.bound →
      (socketService pe ro hs prev streams).2
        = ⟨(handleStreamRun hs prev streams).published,
           (handleStreamRun hs prev streams).errored, false⟩) ∧
    (∀ (hs : String) (prev : List Nat) (streams : List (List StreamItem)),
      (socketService true false hs prev streams).2.published = []) ∧
    (socketService true false "h" [] [[.ok []]]).2.panicked = true := by
  refine ⟨?_, ?_, ?_, by decide⟩
  · intro pe ro
    cases pe <;> cases ro <;> exact ⟨by simp [handle_connections_start], rfl⟩
  · intro pe ro hs prev streams hb
    simp only [socketService, hb, if_pos]
  · intro hs prev streams
    simp only [socketService]
    rw [if_neg (by simp [handle_connections_start])]
    rcases handleStreamRunClosedChan hs prev streams with _ | st
    · rfl
    · cases st <;> rfl

/-- Witness for C6's amended theorem: with no pre-existing socket path the
acceptor binds and the service runs the open-channel driver without
panicking. -/
theorem socketStartupBehavior_witness :
    (socketService false true "h" [] [[.ok []]]).2
      = ⟨(handleStreamRun "h" [] [[.ok []]]).published,
         (handleStreamRun "h" [] [[.ok []]]).errored, false⟩ :=
  socketStartupBehavior.2.1 false true "h" [] [[.ok []]] rfl

/-- C7, counterexample: with a changed value pending and the transport write
failing, the write branch returns `cont` — the loop keeps iterating after a
write error instead of ending, refuting the claim. -/
theorem writeErrorContinuesExample :
    writeStep 0 1 exS0 false false = (1, none, WriteAction.cont) := rfl

/-- C7 (amended): a write error does not end the write loop — the source's
`if res.is_err() { continue; }` keeps iterating (having already marked the
version seen, so that state is lost to this client); the write branch breaks
exactly when `has_changed` errors because the channel is closed. -/
theorem writeLoopBreakIffClosed (seen version : Nat) (value : List Nat)
    (closed writeOk : Bool) :
    (writeStep seen version value closed writeOk).2.2 = WriteAction.brk
      ↔ closed = true := by
  cases closed with
  | true => simp [writeStep]
  | false =>
    simp only [writeStep, Bool.false_eq_true, if_false]
    split
    · simp
    · split <;> simp

/-- C8 (confirmed): the outward event list is exactly the timeline filtered
to events that deserialize as original (non-redacted) room-message events:
the nested-match filter equals the flat filter, and an event is in the
snapshot iff it is in the timeline and has that shape. -/
theorem timelineFilterKeepsOnlyOriginalMessages :
    (∀ evs : List TimelineEvent,
      filterTimeline evs = evs.filter (fun ev => isOriginalRoomMessage ev.deser)) ∧
    (∀ (evs : List TimelineEvent) (ev : TimelineEvent),
      ev ∈ filterTimeline evs ↔ ev ∈ evs ∧ isOriginalRoomMessage ev.deser = true) := by
  have hk : ∀ ev : TimelineEvent,
      keepEvent ev = if isOriginalRoomMessage ev.deser then some ev else none := by
    intro ev
    rcases ev with ⟨d, enc, raw⟩
    rcases d with _ | _ | k
    · rfl
    · rfl
    · rcases k with v | _
      · rcases v <;> rfl
      · rfl
  have h1 : ∀ evs : List TimelineEvent,
      filterTimeline evs = evs.filter (fun ev => isOriginalRoomMessage ev.deser) := by
    intro evs
    induction evs with
    | nil => rfl
    | cons e t ih =>
      by_cases hp : isOriginalRoomMessage e.deser = true
      · have hke : keepEvent e = some e := by rw [hk e]; simp [hp]
        simp only [filterTimeline, List.filterMap_cons, hke, List.filter_cons, hp, if_true]
        rw [show List.filterMap keepEvent t = filterTimeline t from rfl, ih]
      · have hke : keepEvent e = none := by rw [hk e]; simp [hp]
        simp only [filterTimeline, List.filterMap_cons, hke, List.filter_cons, hp,
          Bool.false_eq_true, if_false]
        rw [show List.filterMap keepEvent t = filterTimeline t from rfl, ih]
  refine ⟨h1, ?_⟩
  intro evs ev
  rw [h1 evs]
  simp [List.mem_filter]

/-- C9 (confirmed): if the file at the deterministic path for the content id
already exists, `cache_encrypted_file` returns success immediately with no
download, no decryption and no write, leaving the filesystem untouched; hence
a second call after a completed first call performs zero network/decrypt work
and leaves the same bytes on disk. -/
theorem cacheHitNoWork (fs : List (String × List Nat))
    (net : String → String → List Nat) (dec : Nat → List Nat → List Nat)
    (f : EncryptedFileRef) :
    (∀ b : List Nat, List.lookup (mediaPath f.mediaId) fs = some b →
      cache_encrypted_file fs net dec (.fileRef f) = (fs, [], true)) ∧
    cache_encrypted_file (cache_encrypted_file fs net dec (.fileRef f)).1 net dec (.fileRef f)
      = ((cache_encrypted_file fs net dec (.fileRef f)).1, [], true) := by
  constructor
  · intro b hb
    simp [cache_encrypted_file, hb]
  · rcases hl : List.lookup (mediaPath f.mediaId) fs with _ | b
    · simp [cache_encrypted_file, hl, List.lookup]
    · simp [cache_encrypted_file, hl]

/-- Witness for C9 at a concrete filesystem that already holds the file. -/
theorem cacheHitNoWork_witness :
    cache_encrypted_file [(mediaPath "m", [7])] (fun _ _ => [9]) (fun _ c => c)
        (.fileRef ⟨"s", "m", 0⟩)
      = ([(mediaPath "m", [7])], [], true) :=
  (cacheHitNoWork [(mediaPath "m", [7])] (fun _ _ => [9]) (fun _ c => c)
    ⟨"s", "m", 0⟩).1 [7] (by decide)

/-- C10 (confirmed): a buffer ending in the newline delimiter splits with a
trailing empty segment whose decode fails, so `socket_command` returns an
error even when every actual line is a well-formed command — while the
commands of all lines preceding that first failure are still spawned. -/
theorem trailingNewlineYieldsError (data : List Nat)
    (h : ∀ l ∈ splitOnNL data, (decodeSocketCommand l).isSome) :
    (socket_command (data ++ [10])).2 = false ∧
    (socket_command (data ++ [10])).1 = (splitOnNL data).filterMap decodeSocketCommand := by
  have hr := runLines_all_ok_trailing (splitOnNL data) h
  constructor
  · show (runLines (splitOnNL (data ++ [10]))).2 = false
    rw [splitOnNL_append_newline, hr]
  · show (runLines (splitOnNL (data ++ [10]))).1
        = (splitOnNL data).filterMap decodeSocketCommand
    rw [splitOnNL_append_newline, hr]

/-- Witness for C10 on one well-formed subscribe line followed by the newline
delimiter. -/
theorem trailingNewlineYieldsError_witness :
    (socket_command (c10data ++ [10])).2 = false ∧
    (socket_command (c10data ++ [10])).1
      = (splitOnNL c10data).filterMap decodeSocketCommand :=
  trailingNewlineYieldsError c10data (by decide)
